import Mathlib

/-!
Verification of the TinyPedal setting-persistence engine (`tinypedal/setting.py`)
and the preset list loader, via a shallow embedding of the relevant code.

The embedding models:
* `FileName` / `Preset` attribute lookup (Python `getattr` with `__slots__`),
* the `Setting.save` trigger (enqueue + debounce counter + worker spawn guard),
* the `Setting.__saving` worker (debounce wait, backup, write/verify retry
  loop, restore-on-failure, backup cleanup, queue pop, flag clear, followup),
* `Setting.preset_list` (JSON file listing, mtime-descending sort, filtering).

External collaborators (`create_backup_file`, `save_json_file`,
`verify_json_file`, `restore_backup_file`, `delete_backup_file`) are modelled
against their documented contracts over an abstract disk: backup captures the
target's pre-write content, restore copies the backup back over the target,
delete removes the backup.  The outcome of `verify_json_file` and the bytes
produced by `save_json_file` are adversarial oracles, so theorems quantify
over every possible write/verify behaviour.

Side effects that the claims mention (log lines, sleeps, file operations) are
recorded as an event trace.
-/

/-- Observable side effects of the saving engine, in program order.
`tick` is one iteration of the 10ms debounce wait, `sleep50` the 50ms retry
backoff, `logErrorAttempts n` the "failed saving, n attempt(s) left" error
line, `logInfoLine fn state used left` the final
"%s %s (took %sms, %s/%s attempts)" info line (timing omitted), and
`logErrorInvalidType` the "invalid file type, skipping" error line. -/
inductive SEvent where
  | tick : SEvent
  | backupFile (fn fp : String) : SEvent
  | writeFile (fn : String) (idx : Nat) : SEvent
  | verified (fn : String) (idx : Nat) (ok : Bool) : SEvent
  | logErrorAttempts (left : Nat) : SEvent
  | sleep50 : SEvent
  | restoreFile (fn fp : String) : SEvent
  | logInfoLine (fn state_text : String) (used left : Nat) : SEvent
  | deleteBackup (fn fp : String) : SEvent
  | logErrorInvalidType : SEvent
deriving DecidableEq

/-- The mutable string attributes of the `FileName` class (its `__slots__`). -/
structure FileNameRec where
  config : String
  setting : String
  classes : String
  heatmap : String
  brands : String
  brakes : String
  compounds : String
  last_setting : String
deriving DecidableEq

/-- `FileName.__init__` default values. -/
def FileNameRec.initial : FileNameRec :=
  { config := "config.json"
    setting := "default.json"
    classes := "classes.json"
    heatmap := "heatmap.json"
    brands := "brands.json"
    brakes := "brakes.json"
    compounds := "compounds.json"
    last_setting := "None.json" }

/-- `getattr(self.filename, filetype, None)`: attribute lookup over the
`FileName` slots, `none` when the attribute does not exist. -/
def getFileName (f : FileNameRec) (ft : String) : Option String :=
  if ft = "config" then some f.config
  else if ft = "setting" then some f.setting
  else if ft = "classes" then some f.classes
  else if ft = "heatmap" then some f.heatmap
  else if ft = "brands" then some f.brands
  else if ft = "brakes" then some f.brakes
  else if ft = "compounds" then some f.compounds
  else if ft = "last_setting" then some f.last_setting
  else none

/-- The dictionary-valued attributes of the `Preset` class (its `__slots__`).
Each field holds an abstract reference identity for the Python dict object
currently bound to that attribute. -/
structure PresetRefs where
  config : Nat
  setting : Nat
  classes : Nat
  heatmap : Nat
  brands : Nat
  brakes : Nat
  compounds : Nat
  brands_logo : Nat
deriving DecidableEq

/-- `getattr(self.user, filetype)`: attribute lookup over the `Preset` slots;
`none` models the `AttributeError` raised for any other name. -/
def getUserDict (u : PresetRefs) (ft : String) : Option Nat :=
  if ft = "config" then some u.config
  else if ft = "setting" then some u.setting
  else if ft = "classes" then some u.classes
  else if ft = "heatmap" then some u.heatmap
  else if ft = "brands" then some u.brands
  else if ft = "brakes" then some u.brakes
  else if ft = "compounds" then some u.compounds
  else if ft = "brands_logo" then some u.brands_logo
  else none

/-- One pending save task: `(filename, (filepath, dict_user))` as stored in
`Setting._save_queue`.  The queue itself is the insertion-ordered list of
entries of that Python dict. -/
abbrev QueueEntry := String × String × Nat

/-- The engine-relevant state of a `Setting` instance. -/
structure EngineState where
  save_delay : Int
  save_queue : List QueueEntry
  is_saving : Bool
  filename : FileNameRec
  path_config : String
  path_settings : String
  user : PresetRefs
  /-- `self.application["maximum_saving_attempts"]` -/
  app_max_attempts : Int
deriving DecidableEq

/-- First half of `Setting.save` (the `if not next_task:` block): resolve the
file name, log-and-skip on an unknown file type, and enqueue
`(filepath, dict_user)` keyed by file name unless that file name is already
queued.  `Except.error` models the `AttributeError` escaping from
`getattr(self.user, filetype)` when `FileName` has the attribute but `Preset`
does not. -/
def enqueueStep (st : EngineState) (filetype : String) :
    Except Unit (EngineState × List SEvent) :=
  match getFileName st.filename filetype with
  | none => .ok (st, [SEvent.logErrorInvalidType])
  | some fn =>
    if st.save_queue.any (fun e => e.1 == fn) then .ok (st, [])
    else
      let fp := if filetype = "config" then st.path_config else st.path_settings
      match getUserDict st.user filetype with
      | none => .error ()
      | some d => .ok ({ st with save_queue := st.save_queue ++ [(fn, fp, d)] }, [])

/-- Second half of `Setting.save`: take the first file name in the queue (the
`for ... break / else return` idiom), overwrite the debounce counter with
`delay`, and, when no worker is active, set `is_saving` and spawn a worker for
that entry.  The returned `Option QueueEntry` is the argument tuple handed to
the spawned `__saving` thread (`none` when no thread is started). -/
def saveTail (st : EngineState) (delay : Int) :
    EngineState × Option QueueEntry :=
  match st.save_queue with
  | [] => (st, none)
  | (fn, fp, d) :: _ =>
    let st1 := { st with save_delay := delay }
    if st1.is_saving then (st1, none)
    else ({ st1 with is_saving := true }, some (fn, fp, d))

/-- `Setting.save(delay, filetype, next_task)`: the enqueue step (skipped in
followup mode) followed by the spawn step. -/
def save (st : EngineState) (delay : Int) (filetype : String)
    (next_task : Bool) :
    Except Unit (EngineState × Option QueueEntry × List SEvent) :=
  if next_task then
    let r := saveTail st delay
    .ok (r.1, r.2, [])
  else
    match enqueueStep st filetype with
    | .error e => .error e
    | .ok (st1, evs) =>
      let r := saveTail st1 delay
      .ok (r.1, r.2, evs)

/-- Abstract on-disk state: for each `(filepath, filename)` pair, the current
content of the target file and of its backup artifact (`none` = absent). -/
structure Disk where
  target : String → String → Option Nat
  backup : String → String → Option Nat

/-- Point update of a file map. -/
def updFile (f : String → String → Option Nat) (fp fn : String)
    (v : Option Nat) : String → String → Option Nat :=
  fun p n => if p = fp ∧ n = fn then v else f p n

/-- Behaviour oracles for the external JSON file primitives: `verifyOk fn i`
is the boolean returned by `verify_json_file` on the `i`-th write attempt for
file `fn` in a worker run, and `writeOut fn i` is the content that
`save_json_file` actually leaves in the target file on that attempt. -/
structure Oracle where
  verifyOk : String → Nat → Bool
  writeOut : String → Nat → Option Nat

/-- The `while self._save_delay > 0` debounce loop, with an explicit fuel
argument (one unit per loop iteration; `Int.toNat` of the entry counter is
always enough, see `debounceAux_closed`).  Returns the number of 10ms ticks
slept and the final counter value. -/
def debounceAux : Nat → Int → Nat × Int
  | 0, d => (0, d)
  | n + 1, d =>
    if d > 0 then
      let r := debounceAux n (d - 1)
      (r.1 + 1, r.2)
    else (0, d)

/-- The debounce loop as run by `__saving`, entered with counter `d`. -/
def debounceLoop (d : Int) : Nat × Int := debounceAux d.toNat d

/-- The `while attempts > 0` write/verify loop of `__saving`, acting on the
disk.  Arguments: remaining attempt budget, number of attempts already made
(`idx`), current disk.  Returns the final `attempts` value, the final disk,
and the event trace of the loop. -/
def attemptLoop (orc : Oracle) (fn fp : String) :
    Nat → Nat → Disk → Nat × Disk × List SEvent
  | 0, _, disk => (0, disk, [])
  | a + 1, idx, disk =>
    let disk1 : Disk :=
      { disk with target := updFile disk.target fp fn (orc.writeOut fn idx) }
    if orc.verifyOk fn idx then
      (a + 1, disk1, [SEvent.writeFile fn idx, SEvent.verified fn idx true])
    else
      let r := attemptLoop orc fn fp a (idx + 1) disk1
      (r.1, r.2.1,
        SEvent.writeFile fn idx :: SEvent.verified fn idx false ::
          SEvent.logErrorAttempts a :: SEvent.sleep50 :: r.2.2)

/-- Combined engine + disk state. -/
structure SysState where
  engine : EngineState
  disk : Disk

/-- `attempts = max_attempts = max(self.application["maximum_saving_attempts"], 3)`
as a natural number (the max with 3 makes it non-negative). -/
def runMaxA (st : EngineState) : Nat := (max st.app_max_attempts 3).toNat

/-- Effect of `create_backup_file(filename, filepath)` per its contract: the
backup artifact now holds the current target content. -/
def diskAfterBackup (disk : Disk) (fn fp : String) : Disk :=
  { disk with backup := updFile disk.backup fp fn (disk.target fp fn) }

/-- Effect of `restore_backup_file(filename, filepath)` per its contract: the
target is replaced by the backup content. -/
def diskRestore (disk : Disk) (fn fp : String) : Disk :=
  { disk with target := updFile disk.target fp fn (disk.backup fp fn) }

/-- Effect of `delete_backup_file(filename, filepath)` per its contract: the
backup artifact is removed. -/
def diskDeleteBackup (disk : Disk) (fn fp : String) : Disk :=
  { disk with backup := updFile disk.backup fp fn none }

/-- The body of `Setting.__saving(filename, filepath, dict_user)` from entry
up to and including `self.is_saving = False` (i.e. everything before the
followup check): compute the attempt budget, sleep out the debounce counter,
create the backup, run the write/verify loop, restore the backup on
exhaustion, log the outcome, delete the backup, pop the processed file name
from the queue and clear the flag. -/
def savingBody (orc : Oracle) (sys : SysState) (info : QueueEntry) :
    SysState × List SEvent :=
  let fn := info.1
  let fp := info.2.1
  let maxA : Nat := runMaxA sys.engine
  let dres := debounceLoop sys.engine.save_delay
  let st1 := { sys.engine with save_delay := dres.2 }
  let disk1 : Disk := diskAfterBackup sys.disk fn fp
  let lres := attemptLoop orc fn fp maxA 0 disk1
  let fin := lres.1
  let disk2 := lres.2.1
  let finres : String × Disk × List SEvent :=
    if fin > 0 then ("saved", disk2, [])
    else ("failed saving", diskRestore disk2 fn fp, [SEvent.restoreFile fn fp])
  let disk4 : Disk := diskDeleteBackup finres.2.1 fn fp
  let st2 :=
    { st1 with
      save_queue := st1.save_queue.eraseP (fun e => e.1 == fn)
      is_saving := false }
  (⟨st2, disk4⟩,
    List.replicate dres.1 SEvent.tick ++
      SEvent.backupFile fn fp :: lres.2.2 ++ finres.2.2 ++
      [SEvent.logInfoLine fn finres.1 (maxA - fin) fin,
       SEvent.deleteBackup fn fp])

/-- A full worker run including the self-chaining followup
(`if self._save_queue: self.save(0, next_task=True)`): after the body, if the
queue is still non-empty, re-enter the save trigger with delay 0 in followup
mode and run the worker it spawns.  `fuel` bounds the number of chained
followups; the length of the rest of the queue is always enough. -/
def savingFull (orc : Oracle) : Nat → SysState → QueueEntry → SysState × List SEvent
  | 0, sys, info => savingBody orc sys info
  | fuel + 1, sys, info =>
    let r := savingBody orc sys info
    if r.1.engine.save_queue.isEmpty then r
    else
      let t := saveTail r.1.engine 0
      match t.2 with
      | none => (⟨t.1, r.1.disk⟩, r.2)
      | some info2 =>
        let r2 := savingFull orc fuel ⟨t.1, r.1.disk⟩ info2
        (r2.1, r.2 ++ r2.2)

/-- File names of the final per-file info log lines, in trace order: one per
completed worker run. -/
def logFile : SEvent → Option String
  | SEvent.logInfoLine fn _ _ _ => some fn
  | _ => none

/-- Order in which worker runs completed, extracted from a trace. -/
def processedOrder (evs : List SEvent) : List String := evs.filterMap logFile

/-- Does this event record a `save_json_file` call for file `fn`? -/
def isWrite (fn : String) : SEvent → Bool
  | SEvent.writeFile f _ => f == fn
  | _ => false

/-- Number of `save_json_file` calls for `fn` recorded in a trace. -/
def countWrites (fn : String) (evs : List SEvent) : Nat :=
  (evs.filter (isWrite fn)).length

/-- Is this event the 50ms retry backoff sleep? -/
def isSleep50 : SEvent → Bool
  | SEvent.sleep50 => true
  | _ => false

/-- Python comparison of strings as lists of code points (`str.__lt__`):
lexicographic, a strict prefix is smaller. -/
def charListLt : List Char → List Char → Bool
  | [], [] => false
  | [], _ :: _ => true
  | _ :: _, [] => false
  | a :: as, b :: bs =>
    if a < b then true else if b < a then false else charListLt as bs

/-- Python comparison of `(mtime, name)` tuples (`tuple.__lt__`). -/
def pairLtB (a b : Int × String) : Bool :=
  if a.1 < b.1 then true
  else if b.1 < a.1 then false
  else charListLt a.2.data b.2.data

/-- Insert into a list sorted in descending tuple order, keeping the new
element after all elements that are not strictly smaller. -/
def insertDesc (x : Int × String) : List (Int × String) → List (Int × String)
  | [] => [x]
  | y :: ys => if pairLtB y x then x :: y :: ys else y :: insertDesc x ys

/-- `sorted(gen_cfg_list, reverse=True)`: descending sort by `(mtime, name)`.
The tuple order is total and antisymmetric (pairs comparing equal are equal),
so the sorted result is unique and this insertion sort agrees with Python's
sort on every input. -/
def sortDesc : List (Int × String) → List (Int × String)
  | [] => []
  | x :: xs => insertDesc x (sortDesc xs)

/-- `_filename.lower().endswith(".json")`, with `str.lower` modelled
per code point by `Char.toLower`. -/
def lowerEndsWithJson (s : String) : Bool :=
  (s.data.map Char.toLower).reverse.take 5 == ['n', 'o', 's', 'j', '.']

/-- `_filename[:-5]`: drop the last five code points. -/
def dropExt5 (s : String) : String := ⟨s.data.take (s.data.length - 5)⟩

/-- The `gen_cfg_list` generator of `Setting.preset_list`:
`(getmtime(path + fn), fn[:-5])` for each directory entry whose lowercase
form ends in `.json`.  `mtime` models `os.path.getmtime` (path prefix fixed)
and `dir` models `os.listdir(self.path.settings)`. -/
def gen_cfg_list (mtime : String → Int) (dir : List String) :
    List (Int × String) :=
  (dir.filter lowerEndsWithJson).map (fun fn => (mtime fn, dropExt5 fn))

/-- The `valid_cfg_list` comprehension of `Setting.preset_list`: names of the
sorted entries passing the `allowed_filename` check.  `allowed` models
`val.allowed_filename(rxp.CFG_INVALID_FILENAME, name)`, an external predicate
whose definition is outside the excerpt; it is kept abstract. -/
def valid_cfg_list (allowed : String → Bool) (mtime : String → Int)
    (dir : List String) : List String :=
  ((sortDesc (gen_cfg_list mtime dir)).filter (fun p => allowed p.2)).map
    (fun p => p.2)

/-- `Setting.preset_list`: the valid names when any exist, `["default"]`
otherwise (Python truthiness of the list). -/
def preset_list (allowed : String → Bool) (mtime : String → Int)
    (dir : List String) : List String :=
  let v := valid_cfg_list allowed mtime dir
  if v.isEmpty then ["default"] else v

/-- A burst of external `save(delay, filetype)` calls for one file type.
Each element carries the call's delay and the `Preset` attribute bindings in
effect at that call (the dictionaries can be rebound between calls, e.g. by
`Setting.create`).  Models N requests issued before the worker consumes the
queue entry (the spawned thread has not run yet). -/
def applyCalls (ft : String) :
    List (Int × PresetRefs) → EngineState → Except Unit EngineState
  | [], st => .ok st
  | (d, refs) :: rest, st =>
    match save { st with user := refs } d ft false with
    | .error e => .error e
    | .ok (st1, _, _) => applyCalls ft rest st1

/-- Scenario runner: one external `save(delay, "setting")` call, followed by
the complete run of the worker it spawns (if any), workers chained with
enough fuel to drain the queue. -/
def runSaveSetting (orc : Oracle) (sys : SysState) (delay : Int) :
    SysState × List SEvent :=
  match save sys.engine delay "setting" false with
  | .error _ => (sys, [])
  | .ok (st1, none, evs) => (⟨st1, sys.disk⟩, evs)
  | .ok (st1, some info, evs) =>
    let r := savingFull orc st1.save_queue.length ⟨st1, sys.disk⟩ info
    (r.1, evs ++ r.2)

/-- A concrete engine state as right after startup: empty queue, no worker,
default file names, global path `G/`, settings path `S/`,
`maximum_saving_attempts = 3`. -/
def engW : EngineState :=
  { save_delay := 0
    save_queue := []
    is_saving := false
    filename := FileNameRec.initial
    path_config := "G/"
    path_settings := "S/"
    user := ⟨1, 2, 3, 4, 5, 6, 7, 8⟩
    app_max_attempts := 3 }

/-- Oracle for runs whose every verification fails (writes land garbage). -/
def orcFailW : Oracle := ⟨fun _ _ => false, fun _ _ => some 99⟩

/-- Oracle for runs whose every verification succeeds. -/
def orcOkW : Oracle := ⟨fun _ _ => true, fun _ _ => some 99⟩

/-- A concrete disk: the settings file `S/default.json` holds content `5`,
nothing else exists, no backups. -/
def diskW : Disk :=
  ⟨fun p n => if p = "S/" ∧ n = "default.json" then some 5 else none,
   fun _ _ => none⟩

/-- Engine state after `save(66, "config")` on `engW`: config queued, worker
spawned for it. -/
def c3St1 : EngineState :=
  { engW with
    save_queue := [("config.json", "G/", 1)]
    save_delay := 66
    is_saving := true }

/-- Engine state after a further `save(66, "setting")` on `c3St1`: both
entries queued in request order, worker still pending. -/
def c3St2 : EngineState :=
  { c3St1 with
    save_queue := [("config.json", "G/", 1), ("default.json", "S/", 2)] }

/-! ### Basic lemmas about the worker building blocks -/

theorem debounceAux_exact (n : Nat) :
    ∀ d : Int, d.toNat = n → debounceAux n d = (n, min d 0) := by
  induction n with
  | zero =>
    intro d hd
    have hle : d ≤ 0 := by omega
    have : ¬ d > 0 := by omega
    simp [debounceAux]
    omega
  | succ n ih =>
    intro d hd
    have hpos : d > 0 := by omega
    have hd1 : (d - 1).toNat = n := by omega
    have hr := ih (d - 1) hd1
    simp [debounceAux, hpos, hr]
    omega

/-- The debounce loop sleeps exactly `toNat` of the entry counter many 10ms
ticks and leaves the counter at 0 (at its entry value when non-positive). -/
theorem debounceLoop_eq (d : Int) : debounceLoop d = (d.toNat, min d 0) :=
  debounceAux_exact d.toNat d rfl

theorem attemptLoop_backup (orc : Oracle) (fn fp : String) :
    ∀ (a idx : Nat) (disk : Disk),
      (attemptLoop orc fn fp a idx disk).2.1.backup = disk.backup := by
  intro a
  induction a with
  | zero => intro idx disk; simp [attemptLoop]
  | succ a ih =>
    intro idx disk
    by_cases h : orc.verifyOk fn idx = true
    · simp [attemptLoop, h]
    · simp only [Bool.not_eq_true] at h
      simp [attemptLoop, h, ih]

theorem attemptLoop_fin_allfail (orc : Oracle) (fn fp : String)
    (hv : ∀ i, orc.verifyOk fn i = false) :
    ∀ (a idx : Nat) (disk : Disk),
      (attemptLoop orc fn fp a idx disk).1 = 0 := by
  intro a
  induction a with
  | zero => intro idx disk; simp [attemptLoop]
  | succ a ih => intro idx disk; simp [attemptLoop, hv idx, ih]

theorem attemptLoop_no_log (orc : Oracle) (fn fp : String) :
    ∀ (a idx : Nat) (disk : Disk),
      processedOrder (attemptLoop orc fn fp a idx disk).2.2 = [] := by
  intro a
  induction a with
  | zero => intro idx disk; simp [attemptLoop, processedOrder]
  | succ a ih =>
    intro idx disk
    by_cases h : orc.verifyOk fn idx = true
    · simp [attemptLoop, h, processedOrder, logFile]
    · simp only [Bool.not_eq_true] at h
      have h2 := ih (idx + 1)
        { disk with target := updFile disk.target fp fn (orc.writeOut fn idx) }
      simp [attemptLoop, h, processedOrder, logFile] at h2 ⊢
      exact h2

theorem attemptLoop_writes_allfail (orc : Oracle) (fn fp : String)
    (hv : ∀ i, orc.verifyOk fn i = false) :
    ∀ (a idx : Nat) (disk : Disk),
      countWrites fn (attemptLoop orc fn fp a idx disk).2.2 = a := by
  intro a
  induction a with
  | zero => intro idx disk; simp [attemptLoop, countWrites]
  | succ a ih =>
    intro idx disk
    simp [attemptLoop, hv idx, countWrites, isWrite, List.filter] at ih ⊢
    exact ih (idx + 1) _

theorem attemptLoop_sleeps_allfail (orc : Oracle) (fn fp : String)
    (hv : ∀ i, orc.verifyOk fn i = false) :
    ∀ (a idx : Nat) (disk : Disk),
      ((attemptLoop orc fn fp a idx disk).2.2.filter isSleep50).length = a := by
  intro a
  induction a with
  | zero => intro idx disk; simp [attemptLoop]
  | succ a ih =>
    intro idx disk
    simp [attemptLoop, hv idx, isSleep50, List.filter] at ih ⊢
    exact ih (idx + 1) _

theorem attemptLoop_first_ok (orc : Oracle) (fn fp : String) (a idx : Nat)
    (disk : Disk) (hv : orc.verifyOk fn idx = true) :
    attemptLoop orc fn fp (a + 1) idx disk =
      (a + 1,
        { disk with target := updFile disk.target fp fn (orc.writeOut fn idx) },
        [SEvent.writeFile fn idx, SEvent.verified fn idx true]) := by
  simp [attemptLoop, hv]

theorem processedOrder_replicate_tick (n : Nat) :
    processedOrder (List.replicate n SEvent.tick) = [] := by
  induction n with
  | zero => rfl
  | succ n ih =>
    simp only [processedOrder, List.replicate_succ, List.filterMap_cons] at ih ⊢
    simp [logFile, ih]

theorem savingBody_queue (orc : Oracle) (sys : SysState) (info : QueueEntry) :
    (savingBody orc sys info).1.engine.save_queue
      = sys.engine.save_queue.eraseP (fun e => e.1 == info.1) := rfl

theorem savingBody_flag (orc : Oracle) (sys : SysState) (info : QueueEntry) :
    (savingBody orc sys info).1.engine.is_saving = false := rfl

theorem savingBody_processed (orc : Oracle) (sys : SysState) (info : QueueEntry) :
    processedOrder (savingBody orc sys info).2 = [info.1] := by
  have hrep := processedOrder_replicate_tick (debounceLoop sys.engine.save_delay).1
  have hloop := attemptLoop_no_log orc info.1 info.2.1
    (runMaxA sys.engine) 0 (diskAfterBackup sys.disk info.1 info.2.1)
  simp only [processedOrder, List.filterMap_append] at hrep hloop ⊢
  simp only [savingBody]
  split
  · simp_all [List.filterMap_cons, logFile]
  · simp_all [List.filterMap_cons, logFile]


theorem runMaxA_ge3 (st : EngineState) : 3 ≤ runMaxA st := by
  have h : (3 : Int) ≤ max st.app_max_attempts 3 := le_max_right _ _
  unfold runMaxA
  omega

theorem filter_replicate_tick_nil (p : SEvent → Bool) (hp : p SEvent.tick = false)
    (n : Nat) : (List.replicate n SEvent.tick).filter p = [] := by
  apply List.filter_eq_nil_iff.mpr
  intro a ha
  have := List.eq_of_mem_replicate ha
  subst this
  simp [hp]

/-- With verification failing on every attempt, the worker body restores the
pre-operation target content, deletes the backup, performs `runMaxA` writes
and `runMaxA` retry sleeps, and its trace ends restore → failure log (all
attempts used, 0 left) → backup deletion. -/
theorem savingBody_allfail (orc : Oracle) (sys : SysState) (info : QueueEntry)
    (hv : ∀ i, orc.verifyOk info.1 i = false) :
    (savingBody orc sys info).1.disk.target info.2.1 info.1
        = sys.disk.target info.2.1 info.1
      ∧ (savingBody orc sys info).1.disk.backup info.2.1 info.1 = none
      ∧ countWrites info.1 (savingBody orc sys info).2 = runMaxA sys.engine
      ∧ ((savingBody orc sys info).2.filter isSleep50).length = runMaxA sys.engine
      ∧ ∃ pre, (savingBody orc sys info).2
          = pre ++ [SEvent.restoreFile info.1 info.2.1,
                    SEvent.logInfoLine info.1 "failed saving" (runMaxA sys.engine) 0,
                    SEvent.deleteBackup info.1 info.2.1] := by
  obtain ⟨fn, fp, dv⟩ := info
  have hfin := attemptLoop_fin_allfail orc fn fp hv (runMaxA sys.engine) 0
    (diskAfterBackup sys.disk fn fp)
  have hbk := attemptLoop_backup orc fn fp (runMaxA sys.engine) 0
    (diskAfterBackup sys.disk fn fp)
  have hw := attemptLoop_writes_allfail orc fn fp hv (runMaxA sys.engine) 0
    (diskAfterBackup sys.disk fn fp)
  have hs := attemptLoop_sleeps_allfail orc fn fp hv (runMaxA sys.engine) 0
    (diskAfterBackup sys.disk fn fp)
  simp only [savingBody]
  simp only [hfin, gt_iff_lt, lt_irrefl, if_false, Nat.sub_zero]
  refine ⟨?_, ?_, ?_, ?_, ?_⟩
  · simp only [diskDeleteBackup, diskRestore, updFile, and_self, if_true]
    rw [hbk]
    simp [diskAfterBackup, updFile]
  · simp [diskDeleteBackup, updFile]
  · simp only [countWrites, List.filter_append, List.length_append,
      filter_replicate_tick_nil (isWrite fn) rfl, List.filter_cons]
    simp only [countWrites] at hw
    simp [isWrite, hw]
  · simp only [List.filter_append, List.length_append,
      filter_replicate_tick_nil isSleep50 rfl, List.filter_cons]
    simp [isSleep50, hs]
  · refine ⟨List.replicate (debounceLoop sys.engine.save_delay).1 SEvent.tick ++
      SEvent.backupFile fn fp ::
        (attemptLoop orc fn fp (runMaxA sys.engine) 0
          (diskAfterBackup sys.disk fn fp)).2.2, ?_⟩
    simp

/-- With verification succeeding on the first attempt, the worker body's
trace is: debounce ticks, backup, one write, one (successful) verify, the
"saved" info log with 0 attempts used and all `runMaxA` attempts left, and
the backup deletion. -/
theorem savingBody_firstok (orc : Oracle) (sys : SysState) (info : QueueEntry)
    (hv : orc.verifyOk info.1 0 = true) :
    (savingBody orc sys info).2
      = List.replicate sys.engine.save_delay.toNat SEvent.tick ++
        [SEvent.backupFile info.1 info.2.1,
         SEvent.writeFile info.1 0, SEvent.verified info.1 0 true,
         SEvent.logInfoLine info.1 "saved" 0 (runMaxA sys.engine),
         SEvent.deleteBackup info.1 info.2.1] := by
  obtain ⟨fn, fp, dv⟩ := info
  obtain ⟨a, ha⟩ : ∃ a, runMaxA sys.engine = a + 1 := by
    have := runMaxA_ge3 sys.engine
    exact ⟨runMaxA sys.engine - 1, by omega⟩
  have hloop := attemptLoop_first_ok orc fn fp a 0 (diskAfterBackup sys.disk fn fp) hv
  simp only [savingBody, ha, hloop, debounceLoop_eq]
  simp

theorem saveTail_empty (st : EngineState) (d : Int) (h : st.save_queue = []) :
    saveTail st d = (st, none) := by
  unfold saveTail
  rw [h]

theorem saveTail_busy (st : EngineState) (d : Int) (e : QueueEntry)
    (rest : List QueueEntry) (h : st.save_queue = e :: rest)
    (hs : st.is_saving = true) :
    saveTail st d = ({ st with save_delay := d }, none) := by
  obtain ⟨fn, fp, dv⟩ := e
  unfold saveTail
  rw [h]
  simp [hs]

theorem saveTail_spawn (st : EngineState) (d : Int) (e : QueueEntry)
    (rest : List QueueEntry) (h : st.save_queue = e :: rest)
    (hs : st.is_saving = false) :
    saveTail st d = ({ st with save_delay := d, is_saving := true }, some e) := by
  obtain ⟨fn, fp, dv⟩ := e
  unfold saveTail
  rw [h]
  simp [hs]


theorem saveTail_queue (st : EngineState) (d : Int) :
    (saveTail st d).1.save_queue = st.save_queue := by
  cases h : st.save_queue with
  | nil => rw [saveTail_empty st d h]; exact h
  | cons e rest =>
    cases hs : st.is_saving with
    | true => rw [saveTail_busy st d e rest h hs]; exact h
    | false => rw [saveTail_spawn st d e rest h hs]; exact h

theorem saveTail_spawn_inv (st : EngineState) (d : Int) (e : QueueEntry)
    (h : (saveTail st d).2 = some e) :
    st.is_saving = false ∧ (saveTail st d).1.is_saving = true
      ∧ st.save_queue.head? = some e := by
  cases hq : st.save_queue with
  | nil => rw [saveTail_empty st d hq] at h; cases h
  | cons e0 rest =>
    cases hs : st.is_saving with
    | true => rw [saveTail_busy st d e0 rest hq hs] at h; cases h
    | false =>
      have hst := saveTail_spawn st d e0 rest hq hs
      rw [hst] at h
      simp only [Option.some.injEq] at h
      subst h
      rw [hst]
      exact ⟨rfl, rfl, rfl⟩

theorem enqueueStep_invalid (st : EngineState) (ft : String)
    (hgf : getFileName st.filename ft = none) :
    enqueueStep st ft = .ok (st, [SEvent.logErrorInvalidType]) := by
  unfold enqueueStep
  rw [hgf]

theorem enqueueStep_present (st : EngineState) (ft fn : String)
    (hgf : getFileName st.filename ft = some fn)
    (hq : st.save_queue.any (fun e => e.1 == fn) = true) :
    enqueueStep st ft = .ok (st, []) := by
  unfold enqueueStep
  rw [hgf]
  simp [hq]

theorem enqueueStep_fresh (st : EngineState) (ft fn : String) (dv : Nat)
    (hgf : getFileName st.filename ft = some fn)
    (hq : st.save_queue.any (fun e => e.1 == fn) = false)
    (hgu : getUserDict st.user ft = some dv) :
    enqueueStep st ft
      = .ok ({ st with save_queue := st.save_queue ++
          [(fn, if ft = "config" then st.path_config else st.path_settings, dv)] },
        []) := by
  unfold enqueueStep
  rw [hgf]
  simp [hq, hgu]

theorem enqueueStep_raises (st : EngineState) (ft fn : String)
    (hgf : getFileName st.filename ft = some fn)
    (hq : st.save_queue.any (fun e => e.1 == fn) = false)
    (hgu : getUserDict st.user ft = none) :
    enqueueStep st ft = .error () := by
  unfold enqueueStep
  rw [hgf]
  simp [hq, hgu]

theorem save_eq_next (st : EngineState) (d : Int) (ft : String) :
    save st d ft true = .ok ((saveTail st d).1, (saveTail st d).2, []) := by
  unfold save
  simp

theorem save_eq_invalid (st : EngineState) (d : Int) (ft : String)
    (hgf : getFileName st.filename ft = none) :
    save st d ft false
      = .ok ((saveTail st d).1, (saveTail st d).2,
          [SEvent.logErrorInvalidType]) := by
  unfold save
  rw [enqueueStep_invalid st ft hgf]
  rfl

theorem save_eq_present (st : EngineState) (d : Int) (ft fn : String)
    (hgf : getFileName st.filename ft = some fn)
    (hq : st.save_queue.any (fun e => e.1 == fn) = true) :
    save st d ft false = .ok ((saveTail st d).1, (saveTail st d).2, []) := by
  unfold save
  rw [enqueueStep_present st ft fn hgf hq]
  rfl

theorem save_eq_fresh (st : EngineState) (d : Int) (ft fn : String) (dv : Nat)
    (hgf : getFileName st.filename ft = some fn)
    (hq : st.save_queue.any (fun e => e.1 == fn) = false)
    (hgu : getUserDict st.user ft = some dv) :
    save st d ft false
      = (let st1 : EngineState := { st with save_queue := st.save_queue ++
          [(fn, if ft = "config" then st.path_config else st.path_settings, dv)] }
        .ok ((saveTail st1 d).1, (saveTail st1 d).2, [])) := by
  unfold save
  rw [enqueueStep_fresh st ft fn dv hgf hq hgu]
  rfl

theorem save_eq_raises (st : EngineState) (d : Int) (ft fn : String)
    (hgf : getFileName st.filename ft = some fn)
    (hq : st.save_queue.any (fun e => e.1 == fn) = false)
    (hgu : getUserDict st.user ft = none) :
    save st d ft false = .error () := by
  unfold save
  rw [enqueueStep_raises st ft fn hgf hq hgu]
  rfl

theorem enqueueStep_ok_flag (st : EngineState) (ft : String)
    (st1 : EngineState) (evs : List SEvent)
    (h : enqueueStep st ft = .ok (st1, evs)) :
    st1.is_saving = st.is_saving := by
  cases hgf : getFileName st.filename ft with
  | none =>
    rw [enqueueStep_invalid st ft hgf] at h
    simp only [Except.ok.injEq, Prod.mk.injEq] at h
    obtain ⟨h1, -⟩ := h
    rw [← h1]
  | some fn =>
    cases hq : st.save_queue.any (fun e => e.1 == fn) with
    | true =>
      rw [enqueueStep_present st ft fn hgf hq] at h
      simp only [Except.ok.injEq, Prod.mk.injEq] at h
      obtain ⟨h1, -⟩ := h
      rw [← h1]
    | false =>
      cases hgu : getUserDict st.user ft with
      | none => rw [enqueueStep_raises st ft fn hgf hq hgu] at h; cases h
      | some dv =>
        rw [enqueueStep_fresh st ft fn dv hgf hq hgu] at h
        simp only [Except.ok.injEq, Prod.mk.injEq] at h
        obtain ⟨h1, -⟩ := h
        rw [← h1]

/-- The spawn guard of `Setting.save`: a worker thread is started only when
`is_saving` is `false`, and the flag has been set to `true` (before the
thread starts) in the state the call leaves behind. -/
theorem save_spawn_guard (st : EngineState) (d : Int) (ft : String)
    (nt : Bool) (st' : EngineState) (e : QueueEntry) (evs : List SEvent)
    (h : save st d ft nt = .ok (st', some e, evs)) :
    st.is_saving = false ∧ st'.is_saving = true := by
  cases nt with
  | true =>
    rw [save_eq_next st d ft] at h
    simp only [Except.ok.injEq, Prod.mk.injEq] at h
    obtain ⟨h1, h2, -⟩ := h
    obtain ⟨g1, g2, -⟩ := saveTail_spawn_inv st d e h2
    rw [h1] at g2
    exact ⟨g1, g2⟩
  | false =>
    unfold save at h
    simp only [Bool.false_eq_true, if_false] at h
    cases henq : enqueueStep st ft with
    | error u => rw [henq] at h; cases h
    | ok p =>
      obtain ⟨st1, evs1⟩ := p
      rw [henq] at h
      simp only [Except.ok.injEq, Prod.mk.injEq] at h
      obtain ⟨h1, h2, -⟩ := h
      obtain ⟨g1, g2, -⟩ := saveTail_spawn_inv st1 d e h2
      have f1 := enqueueStep_ok_flag st ft st1 evs1 henq
      rw [h1] at g2
      rw [g1] at f1
      exact ⟨f1.symm, g2⟩

/-- Draining the queue: starting a worker on the head of the queue processes
every queued file exactly once, in queue (FIFO) order, and ends with an empty
queue and a cleared `is_saving` flag, provided the followup fuel is at least
the number of remaining entries (the worker chain needs exactly that many
followups). -/
theorem savingFull_drain (orc : Oracle) :
    ∀ (tail : List QueueEntry) (fuel : Nat) (sys : SysState) (e : QueueEntry),
      sys.engine.save_queue = e :: tail →
      tail.length ≤ fuel →
      processedOrder (savingFull orc fuel sys e).2
          = e.1 :: tail.map (fun q => q.1)
        ∧ (savingFull orc fuel sys e).1.engine.save_queue = []
        ∧ (savingFull orc fuel sys e).1.engine.is_saving = false := by
  intro tail
  induction tail with
  | nil =>
    intro fuel sys e hq hf
    have hbq : (savingBody orc sys e).1.engine.save_queue = [] := by
      rw [savingBody_queue, hq]
      simp
    have hpr := savingBody_processed orc sys e
    have hfl := savingBody_flag orc sys e
    cases fuel with
    | zero => exact ⟨by simpa using hpr, hbq, hfl⟩
    | succ fuel =>
      have hunf : savingFull orc (fuel + 1) sys e = savingBody orc sys e := by
        simp only [savingFull]
        rw [hbq]
        rfl
      rw [hunf]
      exact ⟨by simpa using hpr, hbq, hfl⟩
  | cons e2 rest ih =>
    intro fuel sys e hq hf
    cases fuel with
    | zero => simp at hf
    | succ fuel =>
      have hbq : (savingBody orc sys e).1.engine.save_queue = e2 :: rest := by
        rw [savingBody_queue, hq]
        simp
      have hfl := savingBody_flag orc sys e
      have hst := saveTail_spawn (savingBody orc sys e).1.engine 0 e2 rest hbq hfl
      have hq2 : (⟨{ (savingBody orc sys e).1.engine with
            save_delay := 0, is_saving := true }, (savingBody orc sys e).1.disk⟩ :
          SysState).engine.save_queue = e2 :: rest := hbq
      have hlen : rest.length ≤ fuel := by simpa using hf
      obtain ⟨ih1, ih2, ih3⟩ := ih fuel
        ⟨{ (savingBody orc sys e).1.engine with
            save_delay := 0, is_saving := true }, (savingBody orc sys e).1.disk⟩
        e2 hq2 hlen
      have hunf : savingFull orc (fuel + 1) sys e
          = ((savingFull orc fuel
                ⟨{ (savingBody orc sys e).1.engine with
                    save_delay := 0, is_saving := true },
                  (savingBody orc sys e).1.disk⟩ e2).1,
              (savingBody orc sys e).2 ++
                (savingFull orc fuel
                  ⟨{ (savingBody orc sys e).1.engine with
                      save_delay := 0, is_saving := true },
                    (savingBody orc sys e).1.disk⟩ e2).2) := by
        simp only [savingFull]
        rw [hst, hbq]
        rfl
      rw [hunf]
      refine ⟨?_, ih2, ih3⟩
      have hpr := savingBody_processed orc sys e
      simp only [processedOrder, List.filterMap_append] at ih1 hpr ⊢
      rw [hpr, ih1]
      simp

/-! ### Lemmas about the preset list sort -/

theorem pairLtB_false_le (y x : Int × String) (h : pairLtB y x = false) :
    x.1 ≤ y.1 := by
  unfold pairLtB at h
  by_cases h1 : y.1 < x.1
  · simp [h1] at h
  · omega

theorem pairLtB_true_le (y x : Int × String) (h : pairLtB y x = true) :
    y.1 ≤ x.1 := by
  unfold pairLtB at h
  by_cases h1 : y.1 < x.1
  · omega
  · by_cases h2 : x.1 < y.1
    · simp [h1, h2] at h
    · omega

theorem insertDesc_perm (x : Int × String) :
    ∀ l : List (Int × String), (insertDesc x l).Perm (x :: l)
  | [] => by simp [insertDesc]
  | y :: ys => by
    unfold insertDesc
    split
    · exact List.Perm.refl _
    · exact ((insertDesc_perm x ys).cons y).trans (List.Perm.swap x y ys)

theorem sortDesc_perm :
    ∀ l : List (Int × String), (sortDesc l).Perm l
  | [] => List.Perm.refl _
  | x :: xs => by
    unfold sortDesc
    exact (insertDesc_perm x (sortDesc xs)).trans ((sortDesc_perm xs).cons x)

theorem insertDesc_sorted (x : Int × String) :
    ∀ l : List (Int × String),
      List.Pairwise (fun a b => b.1 ≤ a.1) l →
      List.Pairwise (fun a b => b.1 ≤ a.1) (insertDesc x l)
  | [], _ => by simp [insertDesc]
  | y :: ys, h => by
    rw [List.pairwise_cons] at h
    obtain ⟨hy, hys⟩ := h
    unfold insertDesc
    by_cases hc : pairLtB y x = true
    · rw [if_pos hc]
      have hxy := pairLtB_true_le y x hc
      refine List.pairwise_cons.mpr ⟨?_, List.pairwise_cons.mpr ⟨hy, hys⟩⟩
      intro b hb
      rcases List.mem_cons.mp hb with hb | hb
      · subst hb; exact hxy
      · exact le_trans (hy b hb) hxy
    · rw [if_neg (by simp [hc])]
      have hyx := pairLtB_false_le y x (by simpa using hc)
      refine List.pairwise_cons.mpr ⟨?_, insertDesc_sorted x ys hys⟩
      intro b hb
      have hb2 := (insertDesc_perm x ys).mem_iff.mp hb
      rcases List.mem_cons.mp hb2 with hb3 | hb3
      · subst hb3; exact hyx
      · exact hy b hb3

theorem sortDesc_sorted :
    ∀ l : List (Int × String),
      List.Pairwise (fun a b => b.1 ≤ a.1) (sortDesc l)
  | [] => List.Pairwise.nil
  | x :: xs => by
    unfold sortDesc
    exact insertDesc_sorted x (sortDesc xs) (sortDesc_sorted xs)

theorem saveTail_filename (st : EngineState) (d : Int) :
    (saveTail st d).1.filename = st.filename := by
  cases h : st.save_queue with
  | nil => rw [saveTail_empty st d h]
  | cons e rest =>
    cases hs : st.is_saving with
    | true => rw [saveTail_busy st d e rest h hs]
    | false => rw [saveTail_spawn st d e rest h hs]

theorem saveTail_delay (st : EngineState) (d : Int)
    (h : st.save_queue ≠ []) : (saveTail st d).1.save_delay = d := by
  cases hq : st.save_queue with
  | nil => exact absurd hq h
  | cons e rest =>
    cases hs : st.is_saving with
    | true => rw [saveTail_busy st d e rest hq hs]
    | false => rw [saveTail_spawn st d e rest hq hs]

theorem savingFull_single (orc : Oracle) (fuel : Nat) (sys : SysState)
    (e : QueueEntry)
    (h : (savingBody orc sys e).1.engine.save_queue = []) :
    savingFull orc fuel sys e = savingBody orc sys e := by
  cases fuel with
  | zero => rfl
  | succ fuel =>
    simp only [savingFull]
    rw [h]
    rfl

theorem countWrites_firstok (orc : Oracle) (sys : SysState) (info : QueueEntry)
    (hv : orc.verifyOk info.1 0 = true) :
    countWrites info.1 (savingBody orc sys info).2 = 1 := by
  rw [countWrites, savingBody_firstok orc sys info hv]
  rw [List.filter_append, filter_replicate_tick_nil (isWrite info.1) rfl]
  simp [isWrite]

/-- Invariant preservation over a burst tail: once the file name is queued,
further calls for the same file type leave the queue untouched. -/
theorem applyCalls_present (ft fn fp : String) (dv : Nat) :
    ∀ (calls : List (Int × PresetRefs)) (st : EngineState),
      getFileName st.filename ft = some fn →
      st.save_queue.any (fun e => e.1 == fn) = true →
      st.save_queue.filter (fun e => e.1 == fn) = [(fn, fp, dv)] →
      ∃ st', applyCalls ft calls st = .ok st'
        ∧ st'.save_queue.filter (fun e => e.1 == fn) = [(fn, fp, dv)] := by
  intro calls
  induction calls with
  | nil => intro st h1 h2 h3; exact ⟨st, rfl, h3⟩
  | cons c rest ih =>
    intro st h1 h2 h3
    obtain ⟨d, refs⟩ := c
    have hsv := save_eq_present { st with user := refs } d ft fn h1 h2
    have hred : applyCalls ft ((d, refs) :: rest) st
        = applyCalls ft rest (saveTail { st with user := refs } d).1 := by
      simp only [applyCalls]
      rw [hsv]
    rw [hred]
    apply ih
    · rw [saveTail_filename]; exact h1
    · rw [saveTail_queue]; exact h2
    · rw [saveTail_queue]; exact h3

theorem valid_cfg_list_empty_iff (allowed : String → Bool)
    (mtime : String → Int) (dir : List String) :
    valid_cfg_list allowed mtime dir = []
      ↔ ∀ fn ∈ dir, (lowerEndsWithJson fn && allowed (dropExt5 fn)) = false := by
  unfold valid_cfg_list gen_cfg_list
  constructor
  · intro h fn hfn
    by_cases hjson : lowerEndsWithJson fn = true
    · by_cases hal : allowed (dropExt5 fn) = true
      · exfalso
        have hmem : (mtime fn, dropExt5 fn)
            ∈ sortDesc ((dir.filter lowerEndsWithJson).map
                (fun f => (mtime f, dropExt5 f))) := by
          apply (sortDesc_perm _).mem_iff.mpr
          exact List.mem_map_of_mem _ (List.mem_filter.mpr ⟨hfn, hjson⟩)
        have hmem2 : dropExt5 fn
            ∈ ((sortDesc ((dir.filter lowerEndsWithJson).map
                  (fun f => (mtime f, dropExt5 f)))).filter
                (fun p => allowed p.2)).map (fun p => p.2) :=
          List.mem_map_of_mem _ (List.mem_filter.mpr ⟨hmem, hal⟩)
        rw [h] at hmem2
        exact absurd hmem2 (List.not_mem_nil _)
      · simp only [Bool.not_eq_true] at hal
        simp [hal]
    · simp only [Bool.not_eq_true] at hjson
      simp [hjson]
  · intro h
    rw [List.map_eq_nil_iff, List.filter_eq_nil_iff]
    intro p hp
    have hp2 := ((sortDesc_perm _).mem_iff).mp hp
    obtain ⟨fn, hfn, rfl⟩ := List.mem_map.mp hp2
    obtain ⟨hfn2, hjson⟩ := List.mem_filter.mp hfn
    have hh := h fn hfn2
    rw [hjson] at hh
    simpa using hh

/-! ### Claim theorems -/

/-- C1: for every save operation in which `verify_json_file` returns false on
every attempt, the worker invokes `restore_backup_file` on the target file
before finishing, so that — with the backup/restore collaborators honouring
their contracts as modelled by `diskAfterBackup`/`diskRestore` — the on-disk
target content after the operation equals its content before the operation
began, for every initial disk state and every (adversarial) write
behaviour. -/
theorem c1_failed_save_restores_predisk (orc : Oracle) (sys : SysState)
    (info : QueueEntry) (hv : ∀ i, orc.verifyOk info.1 i = false) :
    SEvent.restoreFile info.1 info.2.1 ∈ (savingBody orc sys info).2
      ∧ (savingBody orc sys info).1.disk.target info.2.1 info.1
          = sys.disk.target info.2.1 info.1 := by
  obtain ⟨h1, -, -, -, pre, hpre⟩ := savingBody_allfail orc sys info hv
  refine ⟨?_, h1⟩
  rw [hpre]
  simp

/-- C1 witness: concrete failing save of `default.json` on the startup
state; the restore event occurs and the target content is unchanged. -/
theorem c1_witness :
    (∀ i, orcFailW.verifyOk "default.json" i = false)
      ∧ (SEvent.restoreFile "default.json" "S/"
          ∈ (savingBody orcFailW ⟨engW, diskW⟩ ("default.json", "S/", 2)).2
        ∧ (savingBody orcFailW ⟨engW, diskW⟩
            ("default.json", "S/", 2)).1.disk.target "S/" "default.json"
          = diskW.target "S/" "default.json") :=
  ⟨fun _ => rfl,
    c1_failed_save_restores_predisk orcFailW ⟨engW, diskW⟩
      ("default.json", "S/", 2) (fun _ => rfl)⟩

/-- C4: for every configured `maximum_saving_attempts` value `m`, when
verification fails on every attempt the worker calls `save_json_file`
exactly `max(m, 3)` times (`runMaxA`), sleeps the 50ms backoff after each
failed verify (same count), then restores the backup, then deletes it, and
the final log line reports "failed saving" with all `max(m, 3)` attempts
used and 0 remaining. -/
theorem c4_retry_budget (orc : Oracle) (sys : SysState) (info : QueueEntry)
    (hv : ∀ i, orc.verifyOk info.1 i = false) :
    countWrites info.1 (savingBody orc sys info).2 = runMaxA sys.engine
      ∧ ((savingBody orc sys info).2.filter isSleep50).length
          = runMaxA sys.engine
      ∧ ∃ pre, (savingBody orc sys info).2
          = pre ++ [SEvent.restoreFile info.1 info.2.1,
              SEvent.logInfoLine info.1 "failed saving" (runMaxA sys.engine) 0,
              SEvent.deleteBackup info.1 info.2.1] := by
  obtain ⟨-, -, h3, h4, h5⟩ := savingBody_allfail orc sys info hv
  exact ⟨h3, h4, h5⟩

/-- C4 witness: with `maximum_saving_attempts = 3` and verification always
failing, exactly 3 writes and 3 backoff sleeps occur. -/
theorem c4_witness :
    (∀ i, orcFailW.verifyOk "default.json" i = false)
      ∧ runMaxA engW = 3
      ∧ countWrites "default.json"
          (savingBody orcFailW ⟨engW, diskW⟩ ("default.json", "S/", 2)).2 = 3
      ∧ ((savingBody orcFailW ⟨engW, diskW⟩
          ("default.json", "S/", 2)).2.filter isSleep50).length = 3 := by
  have h := c4_retry_budget orcFailW ⟨engW, diskW⟩ ("default.json", "S/", 2)
    (fun _ => rfl)
  refine ⟨fun _ => rfl, rfl, ?_, ?_⟩
  · rw [h.1]; rfl
  · rw [h.2.1]; rfl

/-- C2: for every burst of N `save` calls for the same valid category issued
before the worker consumes the queue entry (modelled by `applyCalls`, which
allows the Preset dictionaries to be rebound between calls), the queue ends
up containing exactly one entry keyed by the category's file name, that
entry is the `(filepath, dict_user)` pair captured by the first call (later
calls do not replace it), and the worker run that then consumes the entry
performs exactly one write (verification succeeding on its first attempt). -/
theorem c2_burst_coalesces (st0 : EngineState) (ft fn : String) (d0 : Int)
    (refs0 : PresetRefs) (rest : List (Int × PresetRefs))
    (hft : ft = "config" ∨ ft = "setting" ∨ ft = "classes" ∨ ft = "heatmap"
      ∨ ft = "brands" ∨ ft = "brakes" ∨ ft = "compounds")
    (hfn : getFileName st0.filename ft = some fn)
    (hnew : st0.save_queue.any (fun e => e.1 == fn) = false) :
    ∃ st' dv, getUserDict refs0 ft = some dv
      ∧ applyCalls ft ((d0, refs0) :: rest) st0 = .ok st'
      ∧ st'.save_queue.filter (fun e => e.1 == fn)
          = [(fn, if ft = "config" then st0.path_config else st0.path_settings,
              dv)]
      ∧ (∀ (orc : Oracle) (disk : Disk), orc.verifyOk fn 0 = true →
          countWrites fn (savingBody orc ⟨st', disk⟩
            (fn, (if ft = "config" then st0.path_config else st0.path_settings),
              dv)).2 = 1) := by
  obtain ⟨dv, hdv⟩ : ∃ dv, getUserDict refs0 ft = some dv := by
    rcases hft with rfl | rfl | rfl | rfl | rfl | rfl | rfl <;> exact ⟨_, rfl⟩
  have hsv := save_eq_fresh { st0 with user := refs0 } d0 ft fn dv hfn hnew hdv
  have hred : applyCalls ft ((d0, refs0) :: rest) st0
      = applyCalls ft rest
          (saveTail { st0 with user := refs0, save_queue := st0.save_queue ++
            [(fn, if ft = "config" then st0.path_config else st0.path_settings,
              dv)] } d0).1 := by
    simp only [applyCalls]
    rw [hsv]
  have hfilter0 : st0.save_queue.filter (fun e => e.1 == fn) = [] := by
    rw [List.filter_eq_nil_iff]
    intro a ha
    have := List.any_eq_false.mp hnew a ha
    simp at this
    simp [this]
  obtain ⟨st', hap, hfil⟩ := applyCalls_present ft fn
    (if ft = "config" then st0.path_config else st0.path_settings) dv rest
    (saveTail { st0 with user := refs0, save_queue := st0.save_queue ++
      [(fn, if ft = "config" then st0.path_config else st0.path_settings,
        dv)] } d0).1
    (by rw [saveTail_filename]; exact hfn)
    (by rw [saveTail_queue]; simp)
    (by rw [saveTail_queue]; simp [List.filter_append, hfilter0])
  refine ⟨st', dv, hdv, ?_, hfil, ?_⟩
  · rw [hred]; exact hap
  · intro orc disk hv
    exact countWrites_firstok orc ⟨st', disk⟩ (fn, _, dv) hv

/-- C2 witness: a burst of three `save` calls for category `setting` on the
startup state, with the Preset dictionaries rebound between calls; the queue
keeps the first call's capture. -/
theorem c2_witness :
    getFileName engW.filename "setting" = some "default.json"
      ∧ (engW.save_queue.any (fun e => e.1 == "default.json")) = false
      ∧ ∃ st' dv,
          getUserDict (⟨1, 2, 3, 4, 5, 6, 7, 8⟩ : PresetRefs) "setting"
              = some dv
          ∧ applyCalls "setting"
              [(66, ⟨1, 2, 3, 4, 5, 6, 7, 8⟩),
               (66, ⟨11, 12, 13, 14, 15, 16, 17, 18⟩),
               (0, ⟨21, 22, 23, 24, 25, 26, 27, 28⟩)] engW = .ok st'
          ∧ st'.save_queue.filter (fun e => e.1 == "default.json")
              = [("default.json",
                  if "setting" = "config" then engW.path_config
                  else engW.path_settings, dv)]
          ∧ (∀ (orc : Oracle) (disk : Disk),
              orc.verifyOk "default.json" 0 = true →
              countWrites "default.json" (savingBody orc ⟨st', disk⟩
                ("default.json",
                  (if "setting" = "config" then engW.path_config
                   else engW.path_settings), dv)).2 = 1) :=
  ⟨rfl, rfl,
    c2_burst_coalesces engW "setting" "default.json" 66 ⟨1, 2, 3, 4, 5, 6, 7, 8⟩
      [(66, ⟨11, 12, 13, 14, 15, 16, 17, 18⟩),
       (0, ⟨21, 22, 23, 24, 25, 26, 27, 28⟩)]
      (Or.inr (Or.inl rfl)) rfl rfl⟩

/-- C3: saves for distinct categories are serialized in first-enqueued (FIFO)
order — starting the worker on the head of the queue completes the queued
files exactly in queue order — and a new worker thread is spawned only when
`is_saving` is false, with the flag set (in the state the spawning call
leaves) before the thread is handed off. -/
theorem c3_fifo_single_worker :
    (∀ (st : EngineState) (d : Int) (ft : String) (nt : Bool)
        (st' : EngineState) (e : QueueEntry) (evs : List SEvent),
      save st d ft nt = .ok (st', some e, evs) →
        st.is_saving = false ∧ st'.is_saving = true)
    ∧ (∀ (orc : Oracle) (tail : List QueueEntry) (fuel : Nat)
        (sys : SysState) (e : QueueEntry),
      sys.engine.save_queue = e :: tail → tail.length ≤ fuel →
        processedOrder (savingFull orc fuel sys e).2
          = e.1 :: tail.map (fun q => q.1)) :=
  ⟨save_spawn_guard,
   fun orc tail fuel sys e hq hf => (savingFull_drain orc tail fuel sys e hq hf).1⟩

/-- C3 witness: `config` then `setting` are requested; the spawn on the
first call happens with the flag previously false and then set, and the
chained worker processes config.json before default.json. -/
theorem c3_witness :
    (engW.is_saving = false ∧ c3St1.is_saving = true)
      ∧ processedOrder
          (savingFull orcOkW 1 ⟨c3St2, diskW⟩ ("config.json", "G/", 1)).2
        = ["config.json", "default.json"] := by
  constructor
  · exact c3_fifo_single_worker.1 engW 66 "config" false c3St1
      ("config.json", "G/", 1) [] rfl
  · exact c3_fifo_single_worker.2 orcOkW [("default.json", "S/", 2)] 1
      ⟨c3St2, diskW⟩ ("config.json", "G/", 1) rfl (by simp)

/-- C5: the worker body removes the processed file name from the queue and
clears `is_saving`; the followup re-entry (`save(0, next_task=True)`, i.e.
`saveTail`) enqueues nothing new; and a worker started on the head of the
queue drains it completely: afterwards the queue is empty and `is_saving`
is false. -/
theorem c5_drain_to_empty :
    (∀ (orc : Oracle) (sys : SysState) (info : QueueEntry),
      (savingBody orc sys info).1.engine.save_queue
          = sys.engine.save_queue.eraseP (fun e => e.1 == info.1)
        ∧ (savingBody orc sys info).1.engine.is_saving = false)
    ∧ (∀ (st : EngineState) (ft : String),
        save st 0 ft true = .ok ((saveTail st 0).1, (saveTail st 0).2, [])
          ∧ (saveTail st 0).1.save_queue = st.save_queue)
    ∧ (∀ (orc : Oracle) (tail : List QueueEntry) (fuel : Nat)
        (sys : SysState) (e : QueueEntry),
      sys.engine.save_queue = e :: tail → tail.length ≤ fuel →
        (savingFull orc fuel sys e).1.engine.save_queue = []
          ∧ (savingFull orc fuel sys e).1.engine.is_saving = false) :=
  ⟨fun orc sys info => ⟨savingBody_queue orc sys info, savingBody_flag orc sys info⟩,
   fun st ft => ⟨save_eq_next st 0 ft, saveTail_queue st 0⟩,
   fun orc tail fuel sys e hq hf =>
     ⟨(savingFull_drain orc tail fuel sys e hq hf).2.1,
      (savingFull_drain orc tail fuel sys e hq hf).2.2⟩⟩

/-- C5 witness: draining the two queued categories ends with an empty queue
and a cleared flag. -/
theorem c5_witness :
    (savingFull orcOkW 1 ⟨c3St2, diskW⟩
        ("config.json", "G/", 1)).1.engine.save_queue = []
      ∧ (savingFull orcOkW 1 ⟨c3St2, diskW⟩
          ("config.json", "G/", 1)).1.engine.is_saving = false :=
  c5_drain_to_empty.2.2 orcOkW [("default.json", "S/", 2)] 1
    ⟨c3St2, diskW⟩ ("config.json", "G/", 1) rfl (by simp)

/-- C6 counterexample: `"last_setting"` is not one of the seven known
category identifiers, yet calling `save` with it does not log-and-skip — it
raises an `AttributeError` to the caller (`getattr(self.user,
"last_setting")` fails because `Preset` has no such slot, while `FileName`
does), contradicting "logs an error, raises no exception". -/
theorem c6_counterexample :
    ("last_setting" ∉ (["config", "setting", "classes", "heatmap", "brands",
        "brakes", "compounds"] : List String))
      ∧ save engW 66 "last_setting" false = .error () := by
  exact ⟨by decide, rfl⟩

/-- C6 (amended): for every filetype that is not an attribute of `FileName`
(the seven categories and `last_setting` are attributes; `last_setting`
instead raises), `save` logs the invalid-type error, enqueues nothing and
raises no exception; the whole state is unchanged when the queue is empty,
but when the queue is non-empty the call still overwrites the debounce
counter with its delay and — if no worker is active — spawns a worker for
the already-queued head, setting `is_saving`. -/
theorem c6_amended_unknown_filetype (st : EngineState) (d : Int) (ft : String)
    (hgf : getFileName st.filename ft = none) :
    save st d ft false
        = .ok ((saveTail st d).1, (saveTail st d).2,
            [SEvent.logErrorInvalidType])
      ∧ (saveTail st d).1.save_queue = st.save_queue
      ∧ (st.save_queue = [] → saveTail st d = (st, none))
      ∧ (∀ e rest, st.save_queue = e :: rest →
          (saveTail st d).1.save_delay = d
          ∧ (st.is_saving = true →
              saveTail st d = ({ st with save_delay := d }, none))
          ∧ (st.is_saving = false →
              saveTail st d
                = ({ st with save_delay := d, is_saving := true }, some e))) := by
  refine ⟨save_eq_invalid st d ft hgf, saveTail_queue st d,
    saveTail_empty st d, ?_⟩
  intro e rest hq
  exact ⟨saveTail_delay st d (by simp [hq]),
    fun hs => saveTail_busy st d e rest hq hs,
    fun hs => saveTail_spawn st d e rest hq hs⟩

/-- C6 witness: `"brands_logo"` is unknown to `FileName`; on a state with a
non-empty queue the call logs, enqueues nothing, and overwrites the debounce
counter. -/
theorem c6_witness :
    getFileName c3St2.filename "brands_logo" = none
      ∧ save c3St2 5 "brands_logo" false
          = .ok ((saveTail c3St2 5).1, (saveTail c3St2 5).2,
              [SEvent.logErrorInvalidType])
      ∧ (saveTail c3St2 5).1.save_queue = c3St2.save_queue
      ∧ (saveTail c3St2 5).1.save_delay = 5 := by
  have h := c6_amended_unknown_filetype c3St2 5 "brands_logo" rfl
  exact ⟨rfl, h.1, h.2.1,
    (h.2.2.2 ("config.json", "G/", 1) [("default.json", "S/", 2)] rfl).1⟩

/-- C7 counterexample: in the claim's scenario (category `setting`, delay 0,
verify succeeds on the first attempt) the final log line reports the saved
state with 0 attempts used out of 3 — not 1 as the claim states: the code
logs `max_attempts - attempts` and `attempts` is not decremented on a
successful attempt. -/
theorem c7_counterexample :
    SEvent.logInfoLine "default.json" "saved" 0 3
        ∈ (runSaveSetting orcOkW ⟨engW, diskW⟩ 0).2
      ∧ ((runSaveSetting orcOkW ⟨engW, diskW⟩ 0).2.all (fun e =>
          match e with
          | SEvent.logInfoLine _ _ u _ => u == 0
          | _ => true)) = true := by
  decide

/-- C7 (amended): when `save` is called for category `setting` with delay 0
on an idle engine and verification succeeds on the first attempt, the call
spawns a worker for the setting file which performs backup, then exactly one
write, then one verify, then logs the "saved" state with 0 attempts used and
`runMaxA` remaining (the code logs `max_attempts - attempts` with `attempts`
undecremented on success), then deletes the backup, leaving the queue empty
and `is_saving` false. -/
theorem c7_first_try_scenario (orc : Oracle) (sys : SysState)
    (hq : sys.engine.save_queue = []) (hs : sys.engine.is_saving = false)
    (hv : orc.verifyOk sys.engine.filename.setting 0 = true) :
    ∃ st2 : EngineState,
      save sys.engine 0 "setting" false
        = .ok (st2, some (sys.engine.filename.setting,
            sys.engine.path_settings, sys.engine.user.setting), [])
      ∧ (savingBody orc ⟨st2, sys.disk⟩ (sys.engine.filename.setting,
          sys.engine.path_settings, sys.engine.user.setting)).1.engine.save_queue
          = []
      ∧ (savingBody orc ⟨st2, sys.disk⟩ (sys.engine.filename.setting,
          sys.engine.path_settings, sys.engine.user.setting)).1.engine.is_saving
          = false
      ∧ (savingBody orc ⟨st2, sys.disk⟩ (sys.engine.filename.setting,
          sys.engine.path_settings, sys.engine.user.setting)).2
          = [SEvent.backupFile sys.engine.filename.setting
              sys.engine.path_settings,
             SEvent.writeFile sys.engine.filename.setting 0,
             SEvent.verified sys.engine.filename.setting 0 true,
             SEvent.logInfoLine sys.engine.filename.setting "saved" 0
               (runMaxA sys.engine),
             SEvent.deleteBackup sys.engine.filename.setting
               sys.engine.path_settings] := by
  have hgf : getFileName sys.engine.filename "setting"
      = some sys.engine.filename.setting := rfl
  have hany : (sys.engine.save_queue.any
      fun e => e.1 == sys.engine.filename.setting) = false := by
    rw [hq]; rfl
  have hgu : getUserDict sys.engine.user "setting"
      = some sys.engine.user.setting := rfl
  have hsv := save_eq_fresh sys.engine 0 "setting"
    sys.engine.filename.setting sys.engine.user.setting hgf hany hgu
  have hq1 : ({ sys.engine with save_queue := sys.engine.save_queue ++
      [(sys.engine.filename.setting,
        if "setting" = "config" then sys.engine.path_config
        else sys.engine.path_settings,
        sys.engine.user.setting)] } : EngineState).save_queue
      = (sys.engine.filename.setting,
          if "setting" = "config" then sys.engine.path_config
          else sys.engine.path_settings,
          sys.engine.user.setting) :: [] := by
    rw [show ({ sys.engine with save_queue := sys.engine.save_queue ++
      [(sys.engine.filename.setting,
        if "setting" = "config" then sys.engine.path_config
        else sys.engine.path_settings,
        sys.engine.user.setting)] } : EngineState).save_queue
      = sys.engine.save_queue ++ [_] from rfl, hq]
    rfl
  have hspawn := saveTail_spawn _ 0 _ [] hq1 hs
  refine ⟨{ sys.engine with
      save_queue := sys.engine.save_queue ++
        [(sys.engine.filename.setting, sys.engine.path_settings,
          sys.engine.user.setting)]
      save_delay := 0
      is_saving := true }, ?_, ?_, ?_, ?_⟩
  · rw [hsv]
    show Except.ok (_, (saveTail _ 0).2, ([] : List SEvent)) = _
    rw [hspawn]
    rfl
  · rw [savingBody_queue]
    show (sys.engine.save_queue ++ [_]).eraseP _ = []
    rw [hq]
    simp
  · exact savingBody_flag orc _ _
  · rw [savingBody_firstok orc _ _ hv]
    show List.replicate ((0 : Int).toNat) SEvent.tick ++ _ = _
    rfl

/-- C7 witness: the amended scenario on the concrete startup state. -/
theorem c7_witness :
    (engW.save_queue = [] ∧ engW.is_saving = false
        ∧ orcOkW.verifyOk engW.filename.setting 0 = true)
      ∧ ∃ st2 : EngineState,
          save engW 0 "setting" false
            = .ok (st2, some (engW.filename.setting, engW.path_settings,
                engW.user.setting), [])
          ∧ (savingBody orcOkW ⟨st2, diskW⟩ (engW.filename.setting,
              engW.path_settings, engW.user.setting)).1.engine.save_queue = []
          ∧ (savingBody orcOkW ⟨st2, diskW⟩ (engW.filename.setting,
              engW.path_settings, engW.user.setting)).1.engine.is_saving
              = false
          ∧ (savingBody orcOkW ⟨st2, diskW⟩ (engW.filename.setting,
              engW.path_settings, engW.user.setting)).2
              = [SEvent.backupFile engW.filename.setting engW.path_settings,
                 SEvent.writeFile engW.filename.setting 0,
                 SEvent.verified engW.filename.setting 0 true,
                 SEvent.logInfoLine engW.filename.setting "saved" 0
                   (runMaxA engW),
                 SEvent.deleteBackup engW.filename.setting
                   engW.path_settings] :=
  ⟨⟨rfl, rfl, rfl⟩, c7_first_try_scenario orcOkW ⟨engW, diskW⟩ rfl rfl rfl⟩

theorem take_replicate_cons (n : Nat) (a b : SEvent) (l : List SEvent) :
    (List.replicate n a ++ b :: l).take (n + 1) = List.replicate n a ++ [b] := by
  induction n with
  | zero => simp
  | succ n ih => simp [List.replicate_succ, ih]

/-- C8: every `save` call that returns normally while the queue is non-empty
overwrites the debounce counter with its delay argument; the worker body
emits exactly `toNat` of the entry counter many 10ms ticks strictly before
the backup that starts the write cycle; and the number of ticks depends only
on the current (latest-written) counter value, so a second request's
overwrite restarts the wait from its own delay. -/
theorem c8_debounce_restart :
    (∀ (st : EngineState) (d : Int) (ft : String) (nt : Bool)
        (st' : EngineState) (sp : Option QueueEntry) (evs : List SEvent),
      st.save_queue ≠ [] →
      save st d ft nt = .ok (st', sp, evs) →
      st'.save_delay = d)
    ∧ (∀ (orc : Oracle) (sys : SysState) (info : QueueEntry),
        (savingBody orc sys info).2.take (sys.engine.save_delay.toNat + 1)
          = List.replicate sys.engine.save_delay.toNat SEvent.tick ++
            [SEvent.backupFile info.1 info.2.1])
    ∧ (∀ d : Int, (debounceLoop d).1 = d.toNat) := by
  refine ⟨?_, ?_, ?_⟩
  · intro st d ft nt st' sp evs hne h
    cases nt with
    | true =>
      rw [save_eq_next st d ft] at h
      simp only [Except.ok.injEq, Prod.mk.injEq] at h
      obtain ⟨h1, -⟩ := h
      rw [← h1]
      exact saveTail_delay st d hne
    | false =>
      cases hgf : getFileName st.filename ft with
      | none =>
        rw [save_eq_invalid st d ft hgf] at h
        simp only [Except.ok.injEq, Prod.mk.injEq] at h
        obtain ⟨h1, -⟩ := h
        rw [← h1]
        exact saveTail_delay st d hne
      | some fn =>
        cases hany : st.save_queue.any (fun e => e.1 == fn) with
        | true =>
          rw [save_eq_present st d ft fn hgf hany] at h
          simp only [Except.ok.injEq, Prod.mk.injEq] at h
          obtain ⟨h1, -⟩ := h
          rw [← h1]
          exact saveTail_delay st d hne
        | false =>
          cases hgu : getUserDict st.user ft with
          | none => rw [save_eq_raises st d ft fn hgf hany hgu] at h; cases h
          | some dv =>
            rw [save_eq_fresh st d ft fn dv hgf hany hgu] at h
            simp only [Except.ok.injEq, Prod.mk.injEq] at h
            obtain ⟨h1, -⟩ := h
            rw [← h1]
            refine saveTail_delay _ d ?_
            simp
  · intro orc sys info
    simp only [savingBody, debounceLoop_eq, List.cons_append, List.append_assoc]
    exact take_replicate_cons _ _ _ _
  · intro d
    rw [debounceLoop_eq]

/-- C8 witness: a call on a busy engine with pending work overwrites the
counter with the new delay; the worker then ticks exactly 66 times before
the backup. -/
theorem c8_witness :
    (c3St2.save_queue ≠ []
      ∧ ({ c3St2 with save_delay := 7 } : EngineState).save_delay = 7)
      ∧ (savingBody orcOkW ⟨c3St2, diskW⟩
          ("config.json", "G/", 1)).2.take (c3St2.save_delay.toNat + 1)
        = List.replicate c3St2.save_delay.toNat SEvent.tick ++
          [SEvent.backupFile "config.json" "G/"]
      ∧ (debounceLoop 66).1 = (66 : Int).toNat := by
  refine ⟨⟨by simp [c3St2, c3St1], ?_⟩, ?_, c8_debounce_restart.2.2 66⟩
  · exact c8_debounce_restart.1 c3St2 7 "setting" false
      { c3St2 with save_delay := 7 } none [] (by simp [c3St2, c3St1]) rfl
  · exact c8_debounce_restart.2.1 orcOkW ⟨c3St2, diskW⟩ ("config.json", "G/", 1)

/-- C9: there is a reachable state in which `is_saving` is false while the
save queue is still non-empty: after two categories are requested, the
worker body for the first clears `is_saving` (line `self.is_saving = False`)
while the second category is still queued, before the followup
`save(0, next_task=True)` runs — so a caller polling `is_saving` as a
wait-for-completion flag (as `CreatePreset` does) can observe `False`
between two chained save tasks. -/
theorem c9_flag_false_queue_nonempty :
    ∃ (st1 st2 : EngineState) (e : QueueEntry),
      save engW 66 "config" false = .ok (st1, some e, [])
      ∧ save st1 66 "setting" false = .ok (st2, none, [])
      ∧ (savingBody orcOkW ⟨st2, diskW⟩ e).1.engine.is_saving = false
      ∧ (savingBody orcOkW ⟨st2, diskW⟩ e).1.engine.save_queue ≠ [] := by
  refine ⟨c3St1, c3St2, ("config.json", "G/", 1), rfl, rfl, rfl, by decide⟩

/-- C10: for every state of the settings directory, `preset_list` returns a
non-empty list; when no entry both ends in ".json" (case-insensitively, as
the code lowercases before the check) and has an allowed stripped name, it
returns `["default"]`; otherwise it returns exactly the allowed names
(without extension), which are a permutation of the allowed json entries and
are ordered by modification time in descending order (ties broken by name,
also descending). -/
theorem c10_preset_list_spec (allowed : String → Bool) (mtime : String → Int)
    (dir : List String) :
    preset_list allowed mtime dir ≠ []
      ∧ ((∀ fn ∈ dir,
            (lowerEndsWithJson fn && allowed (dropExt5 fn)) = false) →
          preset_list allowed mtime dir = ["default"])
      ∧ ((∃ fn ∈ dir,
            (lowerEndsWithJson fn && allowed (dropExt5 fn)) = true) →
          preset_list allowed mtime dir = valid_cfg_list allowed mtime dir
          ∧ (valid_cfg_list allowed mtime dir).Perm
              (((gen_cfg_list mtime dir).filter (fun p => allowed p.2)).map
                (fun p => p.2))
          ∧ List.Pairwise (fun a b => b.1 ≤ a.1)
              ((sortDesc (gen_cfg_list mtime dir)).filter
                (fun p => allowed p.2))) := by
  refine ⟨?_, ?_, ?_⟩
  · unfold preset_list
    by_cases hv : valid_cfg_list allowed mtime dir = []
    · simp [hv]
    · simp [hv]
  · intro h
    have hv := (valid_cfg_list_empty_iff allowed mtime dir).mpr h
    unfold preset_list
    simp [hv]
  · intro hex
    have hv : valid_cfg_list allowed mtime dir ≠ [] := by
      intro hnil
      obtain ⟨fn, hfn, hval⟩ := hex
      have := (valid_cfg_list_empty_iff allowed mtime dir).mp hnil fn hfn
      rw [hval] at this
      cases this
    refine ⟨?_, ?_, ?_⟩
    · unfold preset_list
      simp only [List.isEmpty_iff]
      rw [if_neg hv]
    · unfold valid_cfg_list gen_cfg_list
      exact ((sortDesc_perm _).filter _).map _
    · exact List.Pairwise.sublist (List.filter_sublist _)
        (sortDesc_sorted (gen_cfg_list mtime dir))

/-- C10 witness: a concrete directory with one stale preset, one fresher
upper-case entry, one disallowed name and one non-json file. -/
theorem c10_witness :
    (∃ fn ∈ (["a.json", "b.JSON", "bad.json", "x.txt"] : List String),
        (lowerEndsWithJson fn && (fun s => s != "bad") (dropExt5 fn)) = true)
      ∧ preset_list (fun s => s != "bad")
          (fun s => if s = "a.json" then 10
            else if s = "b.JSON" then 20 else 0)
          ["a.json", "b.JSON", "bad.json", "x.txt"] ≠ []
      ∧ preset_list (fun s => s != "bad")
          (fun s => if s = "a.json" then 10
            else if s = "b.JSON" then 20 else 0)
          ["a.json", "b.JSON", "bad.json", "x.txt"]
        = valid_cfg_list (fun s => s != "bad")
          (fun s => if s = "a.json" then 10
            else if s = "b.JSON" then 20 else 0)
          ["a.json", "b.JSON", "bad.json", "x.txt"]
      ∧ List.Pairwise (fun a b => b.1 ≤ a.1)
          ((sortDesc (gen_cfg_list
              (fun s => if s = "a.json" then 10
                else if s = "b.JSON" then 20 else 0)
              ["a.json", "b.JSON", "bad.json", "x.txt"])).filter
            (fun p => (fun s => s != "bad") p.2)) := by
  have h := c10_preset_list_spec (fun s => s != "bad")
    (fun s => if s = "a.json" then 10 else if s = "b.JSON" then 20 else 0)
    ["a.json", "b.JSON", "bad.json", "x.txt"]
  have hex : ∃ fn ∈ (["a.json", "b.JSON", "bad.json", "x.txt"] : List String),
      (lowerEndsWithJson fn && (fun s => s != "bad") (dropExt5 fn)) = true :=
    ⟨"a.json", by decide, by decide⟩
  exact ⟨hex, h.1, (h.2.2 hex).1, (h.2.2 hex).2.2⟩
